import Mathlib

/-!
Verification of the 3DAO core (genetic optimizer, parametric geometry
generators, panel-method aerodynamic evaluator) against its natural-language
specification.  The TypeScript sources are embedded shallowly: JavaScript
numbers become `ℚ` where the code only adds, multiplies, compares and divides,
and `ℝ` where it takes square roots or trigonometric functions; the stream of
`Math.random()` draws becomes an explicit argument; a JavaScript division whose
result can be non-finite (NaN/Infinity) becomes an `Option` value, `none`
standing for the non-finite outcome.
-/

namespace Genetic

/-- Embeds the `Gene` interface of `genetic.ts`: a named value with inclusive
bounds. -/
structure Gene where
  name : String
  value : ℚ
  min : ℚ
  max : ℚ
  deriving DecidableEq

/-- Embeds one gene of `GeneticAlgorithm.crossover`: the offspring gene starts
as a copy of parent 1's gene and, when the crossover draw fires
(`Math.random() < crossoverRate`), its value becomes the blend
`alpha * p1 + (1 - alpha) * p2` with `alpha = Math.random()`. -/
def crossoverGene (fire : Bool) (alpha : ℚ) (g1 g2 : Gene) : Gene :=
  if fire then
    { g1 with value := alpha * g1.value + (1 - alpha) * g2.value }
  else g1

/-- Embeds `Math.max(gene.min, Math.min(gene.max, v))` from
`GeneticAlgorithm.mutate`. -/
def clamp (lo hi x : ℚ) : ℚ := Max.max lo (Min.min hi x)

/-- Embeds one gene of `GeneticAlgorithm.mutate`: when the mutation draw fires
(`Math.random() < mutationRate`) the value is perturbed by
`(r - 0.5) * (max - min) * 0.2` with `r = Math.random()` and clamped back into
the bounds. -/
def mutateGene (fire : Bool) (r : ℚ) (g : Gene) : Gene :=
  if fire then
    { g with value := clamp g.min g.max (g.value + (r - 1/2) * (g.max - g.min) * (2/10)) }
  else g

theorem clamp_between (lo hi x : ℚ) (h : lo ≤ hi) :
    lo ≤ clamp lo hi x ∧ clamp lo hi x ≤ hi := by
  constructor
  · exact le_max_left lo _
  · exact max_le h (min_le_left hi x)

theorem crossoverGene_bounds_eq (fire : Bool) (alpha : ℚ) (g1 g2 : Gene) :
    (crossoverGene fire alpha g1 g2).min = g1.min ∧
    (crossoverGene fire alpha g1 g2).max = g1.max := by
  cases fire <;> simp [crossoverGene]

theorem mutateGene_within (fire : Bool) (r : ℚ) (g : Gene)
    (hl : g.min ≤ g.value) (hu : g.value ≤ g.max) :
    g.min ≤ (mutateGene fire r g).value ∧ (mutateGene fire r g).value ≤ g.max := by
  cases fire with
  | false => exact ⟨by simpa [mutateGene] using hl, by simpa [mutateGene] using hu⟩
  | true =>
    simp only [mutateGene, if_true]
    exact clamp_between g.min g.max _ (le_trans hl hu)

/-- C1: for every gene whose value lies within its inclusive bounds in both
parents, the offspring gene value produced by blend crossover, and the gene
value then produced by mutation (perturbation followed by clamping), again lie
within the bounds; neither crossover nor mutation yields an out-of-bounds
value. -/
theorem crossover_mutate_within_bounds (fire1 fire2 : Bool) (alpha r : ℚ)
    (g1 g2 : Gene) (ha0 : 0 ≤ alpha) (ha1 : alpha ≤ 1)
    (h1l : g1.min ≤ g1.value) (h1u : g1.value ≤ g1.max)
    (h2l : g1.min ≤ g2.value) (h2u : g2.value ≤ g1.max) :
    g1.min ≤ (crossoverGene fire1 alpha g1 g2).value ∧
    (crossoverGene fire1 alpha g1 g2).value ≤ g1.max ∧
    g1.min ≤ (mutateGene fire2 r (crossoverGene fire1 alpha g1 g2)).value ∧
    (mutateGene fire2 r (crossoverGene fire1 alpha g1 g2)).value ≤ g1.max := by
  have hcl : g1.min ≤ (crossoverGene fire1 alpha g1 g2).value := by
    cases fire1 with
    | false => simpa [crossoverGene] using h1l
    | true =>
      simp only [crossoverGene, if_true]
      nlinarith [mul_le_mul_of_nonneg_left h1l ha0,
        mul_le_mul_of_nonneg_left h2l (by linarith : (0:ℚ) ≤ 1 - alpha)]
  have hcu : (crossoverGene fire1 alpha g1 g2).value ≤ g1.max := by
    cases fire1 with
    | false => simpa [crossoverGene] using h1u
    | true =>
      simp only [crossoverGene, if_true]
      nlinarith [mul_le_mul_of_nonneg_left h1u ha0,
        mul_le_mul_of_nonneg_left h2u (by linarith : (0:ℚ) ≤ 1 - alpha)]
  have hbounds := crossoverGene_bounds_eq fire1 alpha g1 g2
  have hm := mutateGene_within fire2 r (crossoverGene fire1 alpha g1 g2)
    (by rw [hbounds.1]; exact hcl) (by rw [hbounds.2]; exact hcu)
  rw [hbounds.1, hbounds.2] at hm
  exact ⟨hcl, hcu, hm.1, hm.2⟩

/-- Concrete instance of `crossover_mutate_within_bounds`: gene bounds `[0, 4]`,
parent values `1` and `3`, blend weight `1`, mutation draw `0`. -/
theorem crossover_mutate_within_bounds_witness :
    ((0:ℚ) ≤ 1 ∧ (1:ℚ) ≤ 1 ∧ (0:ℚ) ≤ 1 ∧ (1:ℚ) ≤ 4 ∧
      (0:ℚ) ≤ 3 ∧ (3:ℚ) ≤ 4) ∧
    ((Gene.mk "x" 1 0 4).min ≤
        (crossoverGene true 1 (Gene.mk "x" 1 0 4) (Gene.mk "x" 3 0 4)).value ∧
      (crossoverGene true 1 (Gene.mk "x" 1 0 4) (Gene.mk "x" 3 0 4)).value ≤
        (Gene.mk "x" 1 0 4).max ∧
      (Gene.mk "x" 1 0 4).min ≤
        (mutateGene true 0 (crossoverGene true 1 (Gene.mk "x" 1 0 4)
          (Gene.mk "x" 3 0 4))).value ∧
      (mutateGene true 0 (crossoverGene true 1 (Gene.mk "x" 1 0 4)
          (Gene.mk "x" 3 0 4))).value ≤ (Gene.mk "x" 1 0 4).max) :=
  ⟨by decide,
    crossover_mutate_within_bounds true true 1 0
      (Gene.mk "x" 1 0 4) (Gene.mk "x" 3 0 4)
      (by decide) (by decide) (by decide) (by decide) (by decide) (by decide)⟩

/-- Embeds the `Individual` interface: a chromosome with its evaluated
fitness (geometry, drag and lift are carried along by the code but play no
role in the claims below). -/
structure Individual where
  genes : List Gene
  fitness : ℚ
  deriving DecidableEq

/-- Embeds `population.sort((a, b) => b.fitness - a.fitness)`: the population's
fitness values in descending order. -/
def insertDesc (x : ℚ) : List ℚ → List ℚ
  | [] => [x]
  | y :: ys => if y < x then x :: y :: ys else y :: insertDesc x ys

def sortDesc (fits : List ℚ) : List ℚ := fits.foldr insertDesc []

/-- The fitness of `population[0]` after the descending sort in `evolve`. -/
def topFitness (fits : List ℚ) : Option ℚ := (sortDesc fits).head?

/-- Embeds lines 183-185 of `genetic.ts`: the best-so-far record is replaced
exactly when there is no record yet or the top fitness of the just-evaluated
population is strictly greater than the recorded fitness. -/
def updateBest (best : Option ℚ) (top : ℚ) : Option ℚ :=
  match best with
  | none => some top
  | some b => if b < top then some top else some b

/-- One `evolve` call, restricted to its effect on the best-so-far fitness:
the population is evaluated (giving `fits`), sorted descending, and the record
is updated from `population[0]`.  An empty population would fault in the
source (`population[0]` is undefined); the model leaves the record unchanged
there, and the claim below assumes a non-empty population. -/
def evolveBestFitness (best : Option ℚ) (fits : List ℚ) : Option ℚ :=
  match topFitness fits with
  | none => best
  | some t => updateBest best t

/-- C2: the best-so-far record is updated only on a strictly greater top
fitness, so the best-so-far fitness is non-decreasing from one generation to
the next: if the record held `b` and after `evolve` it holds `b2`, then
`b ≤ b2`, and `b2 ≠ b` only if the top fitness of the evaluated population
strictly exceeded `b` and became the new record. -/
theorem bestSoFar_monotone (best : Option ℚ) (fits : List ℚ) (b b2 : ℚ)
    (hb : best = some b) (hb2 : evolveBestFitness best fits = some b2) :
    b ≤ b2 ∧ (b2 ≠ b → ∃ t, topFitness fits = some t ∧ b < t ∧ b2 = t) := by
  subst hb
  cases htop : topFitness fits with
  | none =>
    simp only [evolveBestFitness, htop] at hb2
    obtain rfl : b = b2 := Option.some_inj.mp hb2
    exact ⟨le_refl b, fun hne => absurd rfl hne⟩
  | some t =>
    simp only [evolveBestFitness, htop, updateBest] at hb2
    by_cases hlt : b < t
    · rw [if_pos hlt] at hb2
      obtain rfl : t = b2 := Option.some_inj.mp hb2
      exact ⟨le_of_lt hlt, fun _ => ⟨t, rfl, hlt, rfl⟩⟩
    · rw [if_neg hlt] at hb2
      obtain rfl : b = b2 := Option.some_inj.mp hb2
      exact ⟨le_refl b, fun hne => absurd rfl hne⟩

/-- Concrete instance of `bestSoFar_monotone`: record `1`, evaluated population
fitnesses `[0, 2]`; the record becomes `2 ≥ 1`. -/
theorem bestSoFar_monotone_witness :
    ((some (1:ℚ) = some 1) ∧ evolveBestFitness (some 1) [0, 2] = some 2) ∧
    ((1:ℚ) ≤ 2 ∧ ((2:ℚ) ≠ 1 →
      ∃ t, topFitness [(0:ℚ), 2] = some t ∧ (1:ℚ) < t ∧ (2:ℚ) = t)) :=
  ⟨⟨rfl, by decide⟩, bestSoFar_monotone (some 1) [0, 2] 1 2 rfl (by decide)⟩

/-- Embeds the `'min' | 'max' | 'equal'` union type of `Constraint.type`. -/
inductive ConstraintType where
  | minType
  | maxType
  | equalType
  deriving DecidableEq

/-- A registered constraint at the moment `evaluateFitness` reads it: its
type, its threshold (`constraint.value`), its penalty weight, and the measured
value `constraint.evaluate(individual)`. -/
structure ConstraintCase where
  kind : ConstraintType
  threshold : ℚ
  penalty : ℚ
  measured : ℚ
  deriving DecidableEq

/-- Embeds the `switch (constraint.type)` of `evaluateFitness`. -/
def violationOf (c : ConstraintCase) : ℚ :=
  match c.kind with
  | .minType => Max.max 0 (c.threshold - c.measured)
  | .maxType => Max.max 0 (c.measured - c.threshold)
  | .equalType => |c.measured - c.threshold|

/-- Embeds `if (violation > 0) fitness -= violation * constraint.penalty`. -/
def applyPenalty (fitness : ℚ) (c : ConstraintCase) : ℚ :=
  if 0 < violationOf c then fitness - violationOf c * c.penalty else fitness

/-- Embeds the constraint loop of `evaluateFitness`: the raw objective fitness
with every registered constraint's penalty applied in order. -/
def evaluateFitness (raw : ℚ) (cs : List ConstraintCase) : ℚ :=
  cs.foldl applyPenalty raw

theorem violationOf_nonneg (c : ConstraintCase) : 0 ≤ violationOf c := by
  unfold violationOf
  cases c.kind
  · exact le_max_left 0 _
  · exact le_max_left 0 _
  · exact abs_nonneg _

theorem applyPenalty_eq (fitness : ℚ) (c : ConstraintCase) :
    applyPenalty fitness c = fitness - violationOf c * c.penalty := by
  unfold applyPenalty
  by_cases h : 0 < violationOf c
  · rw [if_pos h]
  · rw [if_neg h]
    have h0 : violationOf c = 0 :=
      le_antisymm (not_lt.mp h) (violationOf_nonneg c)
    rw [h0, zero_mul, sub_zero]

/-- C3: `evaluateFitness` subtracts `violation × penaltyWeight` from the raw
fitness for every registered constraint, the violation being
`max(0, threshold − value)` for a `min` constraint, `max(0, value − threshold)`
for a `max` constraint and `|value − threshold|` for an `equal` constraint;
a `min` constraint with threshold 10 and penalty 100 subtracts exactly 300 at
measured value 7 and subtracts 0 at measured value 12. -/
theorem evaluateFitness_penalty_spec (raw : ℚ) (cs : List ConstraintCase) :
    evaluateFitness raw cs =
      raw - (cs.map (fun c => violationOf c * c.penalty)).sum ∧
    evaluateFitness raw [ConstraintCase.mk .minType 10 100 7] = raw - 300 ∧
    evaluateFitness raw [ConstraintCase.mk .minType 10 100 12] = raw := by
  refine ⟨?_, ?_, ?_⟩
  · induction cs generalizing raw with
    | nil => simp [evaluateFitness]
    | cons c rest ih =>
      rw [evaluateFitness, List.foldl_cons, applyPenalty_eq]
      have := ih (raw - violationOf c * c.penalty)
      rw [evaluateFitness] at this
      rw [this, List.map_cons, List.sum_cons]
      ring
  · rw [evaluateFitness, List.foldl_cons, List.foldl_nil, applyPenalty_eq]
    norm_num [violationOf]
  · rw [evaluateFitness, List.foldl_cons, List.foldl_nil, applyPenalty_eq]
    norm_num [violationOf]

/-- Embeds `getAverageFitness`: zero for an empty population, otherwise the
fitness sum (the `reduce`) divided by the population length. -/
def getAverageFitness (fits : List ℚ) : ℚ :=
  if fits.length = 0 then 0
  else fits.foldl (fun acc f => acc + f) 0 / fits.length

theorem foldl_add_eq_add_sum (l : List ℚ) (a : ℚ) :
    l.foldl (fun acc f => acc + f) a = a + l.sum := by
  induction l generalizing a with
  | nil => simp
  | cons x xs ih =>
    rw [List.foldl_cons, ih, List.sum_cons]
    ring

/-- C9: `getAverageFitness` returns exactly 0 on an empty population (no
division by zero) and the arithmetic mean of the fitness values otherwise. -/
theorem getAverageFitness_spec (fits : List ℚ) (h : fits ≠ []) :
    getAverageFitness [] = 0 ∧
    getAverageFitness fits = fits.sum / fits.length := by
  constructor
  · rfl
  · unfold getAverageFitness
    rw [if_neg (fun hlen => h (List.eq_nil_of_length_eq_zero hlen))]
    rw [foldl_add_eq_add_sum, zero_add]

/-- Concrete instance of `getAverageFitness_spec`: the population `[1, 2]` has
average fitness `3/2`. -/
theorem getAverageFitness_spec_witness :
    ([(1:ℚ), 2] ≠ []) ∧
    (getAverageFitness [] = 0 ∧
      getAverageFitness [(1:ℚ), 2] = ([(1:ℚ), 2]).sum / ([(1:ℚ), 2]).length) :=
  ⟨by decide, getAverageFitness_spec [1, 2] (by decide)⟩

/-- Embeds the resolved `GAConfig` held by a `GeneticAlgorithm` instance. -/
structure GAConfig where
  populationSize : ℕ
  mutationRate : ℚ
  crossoverRate : ℚ
  elitismCount : ℕ
  tournamentSize : ℕ
  deriving DecidableEq

/-- Embeds the constructor argument `Partial<GAConfig>`: each field may be
absent (`undefined`). -/
structure GAConfigInput where
  populationSize : Option ℕ
  mutationRate : Option ℚ
  crossoverRate : Option ℚ
  elitismCount : Option ℕ
  tournamentSize : Option ℕ
  deriving DecidableEq

/-- Embeds the JavaScript `x || d` applied to an optional numeric field:
an absent field and the falsy number `0` both yield the default. -/
def jsOrNat (v : Option ℕ) (d : ℕ) : ℕ :=
  match v with
  | none => d
  | some x => if x = 0 then d else x

/-- Embeds the JavaScript `x || d` on a fractional field. -/
def jsOrRat (v : Option ℚ) (d : ℚ) : ℚ :=
  match v with
  | none => d
  | some x => if x = 0 then d else x

/-- Embeds the `GeneticAlgorithm` constructor, lines 42-50 of `genetic.ts`. -/
def mkGAConfig (c : GAConfigInput) : GAConfig :=
  { populationSize := jsOrNat c.populationSize 50,
    mutationRate := jsOrRat c.mutationRate (1/10),
    crossoverRate := jsOrRat c.crossoverRate (7/10),
    elitismCount := jsOrNat c.elitismCount 2,
    tournamentSize := jsOrNat c.tournamentSize 3 }

/-- C10: for every configuration, each numeric field that is supplied as 0 is
treated like an absent field: the constructor silently substitutes the
built-in default for that field (populationSize 50, mutationRate 0.1,
crossoverRate 0.7, elitismCount 2, tournamentSize 3), so a zero value for any
of these parameters cannot be configured through the public constructor. -/
theorem mkGAConfig_zero_uses_defaults (c : GAConfigInput) :
    (c.populationSize = some 0 → (mkGAConfig c).populationSize = 50) ∧
    (c.mutationRate = some 0 → (mkGAConfig c).mutationRate = 1/10) ∧
    (c.crossoverRate = some 0 → (mkGAConfig c).crossoverRate = 7/10) ∧
    (c.elitismCount = some 0 → (mkGAConfig c).elitismCount = 2) ∧
    (c.tournamentSize = some 0 → (mkGAConfig c).tournamentSize = 3) := by
  refine ⟨?_, ?_, ?_, ?_, ?_⟩ <;> intro h <;>
    simp [mkGAConfig, jsOrNat, jsOrRat, h]

/-- Concrete instance of `mkGAConfig_zero_uses_defaults` exercising a single
zero field: a configuration supplying only `populationSize 30` and
`elitismCount 0` gets elitismCount 2 (the default), keeping its other supplied
value. -/
theorem mkGAConfig_zero_uses_defaults_witness :
    (mkGAConfig (GAConfigInput.mk (some 30) none none (some 0) none)).elitismCount = 2 ∧
    (mkGAConfig (GAConfigInput.mk (some 30) none none (some 0) none)).populationSize = 30 :=
  ⟨(mkGAConfig_zero_uses_defaults
      (GAConfigInput.mk (some 30) none none (some 0) none)).2.2.2.1 rfl,
    rfl⟩

/-- The mutable fields of a `GeneticAlgorithm` instance that
`initializePopulation` can touch. -/
structure GAState where
  config : GAConfig
  population : List Individual
  generation : ℕ
  bestIndividual : Option Individual
  fitnessHistory : List ℚ
  deriving DecidableEq

/-- Embeds `geneTemplate.map(gene => ({...gene, value: gene.min +
Math.random() * (gene.max - gene.min)}))`; `rand1 i` is the `Math.random()`
draw consumed for the template's `i`-th gene. -/
def initGenes (rand1 : ℕ → ℚ) : ℕ → List Gene → List Gene
  | _, [] => []
  | i, g :: gs =>
    { g with value := g.min + rand1 i * (g.max - g.min) } :: initGenes rand1 (i+1) gs

/-- Embeds `initializePopulation`, lines 55-69 of `genetic.ts`: the population
is refilled with `populationSize` randomized copies of the template (each with
fitness 0), the generation counter is reset to 0 and the fitness history is
emptied.  `rand k i` is the draw for gene `i` of individual `k`. -/
def initializePopulation (rand : ℕ → ℕ → ℚ) (template : List Gene)
    (s : GAState) : GAState :=
  { s with
    population := (List.range s.config.populationSize).map
      (fun k => { genes := initGenes (rand k) 0 template, fitness := 0 }),
    generation := 0,
    fitnessHistory := [] }

theorem initGenes_length (rand1 : ℕ → ℚ) (i : ℕ) (template : List Gene) :
    (initGenes rand1 i template).length = template.length := by
  induction template generalizing i with
  | nil => rfl
  | cons g gs ih => simp [initGenes, ih]

/-- What each initialized gene satisfies, compared with its template gene. -/
def InitializedFrom (g t : Gene) : Prop :=
  g.name = t.name ∧ g.min = t.min ∧ g.max = t.max ∧ g.min ≤ g.value ∧ g.value ≤ g.max

theorem initGenes_forall2 (rand1 : ℕ → ℚ) (template : List Gene)
    (hr : ∀ i, 0 ≤ rand1 i ∧ rand1 i < 1)
    (ht : ∀ g ∈ template, g.min ≤ g.max) :
    ∀ i, List.Forall₂ InitializedFrom (initGenes rand1 i template) template := by
  induction template with
  | nil => intro i; exact List.Forall₂.nil
  | cons g gs ih =>
    intro i
    refine List.Forall₂.cons ?_ (ih (fun x hx => ht x (List.mem_cons_of_mem g hx)) (i+1))
    have hgb : g.min ≤ g.max := ht g (List.mem_cons_self g gs)
    have h0 := (hr i).1
    have h1 := (hr i).2
    refine ⟨rfl, rfl, rfl, ?_, ?_⟩
    · simp only
      nlinarith
    · simp only
      nlinarith

/-- Counterexample to C5 as stated: `initializePopulation` does NOT clear the
best-so-far record.  Starting from a state whose record holds an individual,
the record still holds it afterwards. -/
theorem initializePopulation_keeps_best :
    (initializePopulation (fun _ _ => 0) []
      (GAState.mk (GAConfig.mk 2 (1/10) (7/10) 2 3) [] 7
        (some (Individual.mk [] 5)) [5])).bestIndividual =
      some (Individual.mk [] 5) ∧
    some (Individual.mk [] 5) ≠ (none : Option Individual) := by
  constructor
  · rfl
  · intro h
    cases h

/-- C5 (amended): after `initializePopulation(template)` the generation
counter is 0, the fitness history is empty, the best-so-far record is left
unchanged (the code does not clear it), and the population consists of exactly
`populationSize` individuals of fitness 0 whose genes carry the template's
name and bounds with a value `min + rand · (max − min)` inside the bounds. -/
theorem initializePopulation_spec (rand : ℕ → ℕ → ℚ) (template : List Gene)
    (s : GAState) (hr : ∀ k i, 0 ≤ rand k i ∧ rand k i < 1)
    (ht : ∀ g ∈ template, g.min ≤ g.max) :
    (initializePopulation rand template s).generation = 0 ∧
    (initializePopulation rand template s).fitnessHistory = [] ∧
    (initializePopulation rand template s).bestIndividual = s.bestIndividual ∧
    (initializePopulation rand template s).population.length
      = s.config.populationSize ∧
    ∀ ind ∈ (initializePopulation rand template s).population,
      ind.fitness = 0 ∧ List.Forall₂ InitializedFrom ind.genes template := by
  refine ⟨rfl, rfl, rfl, by simp [initializePopulation], ?_⟩
  intro ind hind
  simp only [initializePopulation, List.mem_map, List.mem_range] at hind
  obtain ⟨k, _, rfl⟩ := hind
  exact ⟨rfl, initGenes_forall2 (rand k) template (hr k) ht 0⟩

/-- Concrete instance of `initializePopulation_spec`: population size 2,
template gene `"x"` with bounds `[0, 4]`, every random draw `1/2`. -/
theorem initializePopulation_spec_witness :
    ((GAState.mk (GAConfig.mk 2 (1/10) (7/10) 2 3) [] 7
        (some (Individual.mk [] 5)) [5]).config.populationSize = 2) ∧
    ((initializePopulation (fun _ _ => (1:ℚ)/2) [Gene.mk "x" 9 0 4]
        (GAState.mk (GAConfig.mk 2 (1/10) (7/10) 2 3) [] 7
          (some (Individual.mk [] 5)) [5])).generation = 0 ∧
      (initializePopulation (fun _ _ => (1:ℚ)/2) [Gene.mk "x" 9 0 4]
        (GAState.mk (GAConfig.mk 2 (1/10) (7/10) 2 3) [] 7
          (some (Individual.mk [] 5)) [5])).fitnessHistory = [] ∧
      (initializePopulation (fun _ _ => (1:ℚ)/2) [Gene.mk "x" 9 0 4]
        (GAState.mk (GAConfig.mk 2 (1/10) (7/10) 2 3) [] 7
          (some (Individual.mk [] 5)) [5])).bestIndividual =
        (GAState.mk (GAConfig.mk 2 (1/10) (7/10) 2 3) [] 7
          (some (Individual.mk [] 5)) [5]).bestIndividual ∧
      (initializePopulation (fun _ _ => (1:ℚ)/2) [Gene.mk "x" 9 0 4]
        (GAState.mk (GAConfig.mk 2 (1/10) (7/10) 2 3) [] 7
          (some (Individual.mk [] 5)) [5])).population.length =
        (GAState.mk (GAConfig.mk 2 (1/10) (7/10) 2 3) [] 7
          (some (Individual.mk [] 5)) [5]).config.populationSize ∧
      ∀ ind ∈ (initializePopulation (fun _ _ => (1:ℚ)/2) [Gene.mk "x" 9 0 4]
        (GAState.mk (GAConfig.mk 2 (1/10) (7/10) 2 3) [] 7
          (some (Individual.mk [] 5)) [5])).population,
        ind.fitness = 0 ∧
        List.Forall₂ InitializedFrom ind.genes [Gene.mk "x" 9 0 4]) :=
  ⟨rfl,
    initializePopulation_spec (fun _ _ => (1:ℚ)/2) [Gene.mk "x" 9 0 4]
      (GAState.mk (GAConfig.mk 2 (1/10) (7/10) 2 3) [] 7
        (some (Individual.mk [] 5)) [5])
      (fun _ _ => ⟨by norm_num, by norm_num⟩)
      (fun g hg => by
        simp only [List.mem_singleton] at hg
        rw [hg]
        norm_num)⟩

/-- The additive perturbation term of `mutate`:
`(Math.random() - 0.5) * (gene.max - gene.min) * 0.2`. -/
def mutationPerturbation (r mn mx : ℚ) : ℚ := (r - 1/2) * (mx - mn) * (2/10)

/-- The perturbation definition is exactly the term `mutateGene` adds before
clamping. -/
theorem mutateGene_uses_perturbation (r : ℚ) (g : Gene) :
    (mutateGene true r g).value =
      clamp g.min g.max (g.value + mutationPerturbation r g.min g.max) := rfl

/-- Counterexample to C4 as stated: for a gene of range 1 the magnitude
`3/20 = 0.15 ≤ 0.2 × range` is NOT reachable by any `Math.random()` draw
`r ∈ [0, 1]`: the perturbation `(r − 0.5) × range × 0.2` never exceeds
`0.1 × range` in magnitude. -/
theorem mutation_magnitude_not_reachable :
    ((3:ℚ)/20 ≤ (2/10) * ((1:ℚ) - 0)) ∧
    ¬ ∃ r : ℚ, 0 ≤ r ∧ r ≤ 1 ∧ |mutationPerturbation r 0 1| = 3/20 := by
  constructor
  · norm_num
  · rintro ⟨r, h0, h1, habs⟩
    have hb : |mutationPerturbation r 0 1| ≤ 1/10 := by
      rw [abs_le]
      unfold mutationPerturbation
      constructor <;> nlinarith
    rw [habs] at hb
    norm_num at hb

/-- C4 (amended): when mutation fires it adds the uniform perturbation
`(r − 0.5) × 0.2 × (max − min)` and clamps; the perturbation magnitude is at
most `0.1 × (max − min)` (not `0.2 ×`), and every magnitude up to
`0.1 × (max − min)` is reachable by some draw `r ∈ [0, 1)`. -/
theorem mutation_magnitude_spec (mn mx r m : ℚ) (hmm : mn ≤ mx)
    (h0 : 0 ≤ r) (h1 : r ≤ 1) (hm0 : 0 ≤ m) (hm : m ≤ (1/10) * (mx - mn)) :
    |mutationPerturbation r mn mx| ≤ (1/10) * (mx - mn) ∧
    ∃ r2 : ℚ, 0 ≤ r2 ∧ r2 < 1 ∧ |mutationPerturbation r2 mn mx| = m := by
  constructor
  · rw [abs_le]
    unfold mutationPerturbation
    constructor <;> nlinarith
  · by_cases hz : mx - mn = 0
    · have hmz : m = 0 := le_antisymm (by rw [hz] at hm; linarith) hm0
      refine ⟨1/2, by norm_num, by norm_num, ?_⟩
      rw [hmz]
      unfold mutationPerturbation
      rw [show ((1:ℚ)/2 - 1/2) = 0 by norm_num, zero_mul, zero_mul, abs_zero]
    · have hpos : 0 < mx - mn := lt_of_le_of_ne (by linarith) (Ne.symm hz)
      refine ⟨1/2 - 5*m/(mx - mn), ?_, ?_, ?_⟩
      · have hle : 5*m/(mx - mn) ≤ 1/2 := by
          rw [div_le_iff₀ hpos]
          nlinarith
        linarith
      · have hge : 0 ≤ 5*m/(mx - mn) := by positivity
        linarith
      · unfold mutationPerturbation
        have heq : (1/2 - 5*m/(mx - mn) - 1/2) * (mx - mn) * (2/10) = -m := by
          field_simp
          ring
        rw [heq, abs_neg, abs_of_nonneg hm0]

/-- Concrete instance of `mutation_magnitude_spec`: bounds `[0, 10]`, draw
`r = 0`, target magnitude `m = 1`. -/
theorem mutation_magnitude_spec_witness :
    ((0:ℚ) ≤ 10 ∧ (0:ℚ) ≤ 0 ∧ (0:ℚ) ≤ 1 ∧ (0:ℚ) ≤ 1 ∧
      (1:ℚ) ≤ (1/10) * (10 - 0)) ∧
    (|mutationPerturbation 0 0 10| ≤ (1/10) * ((10:ℚ) - 0) ∧
      ∃ r2 : ℚ, 0 ≤ r2 ∧ r2 < 1 ∧ |mutationPerturbation r2 0 10| = 1) :=
  ⟨⟨by norm_num, by norm_num, by norm_num, by norm_num, by norm_num⟩,
    mutation_magnitude_spec 0 10 0 1 (by norm_num) (by norm_num) (by norm_num)
      (by norm_num) (by norm_num)⟩

end Genetic

namespace Geometry

/-- Embeds the face loop of `createWingGeometry` (`geometry.ts` lines
110-122): for each span band `i < segments` and each consecutive pair of
airfoil points `j < pointsPerSection - 1`, two triangles over the quad
`a = i*pps + j`, `b = a + pps`, `c = a + 1`, `d = b + 1` are emitted as
`(a, b, c)` and `(b, d, c)`. -/
def wingTriangles (segments pps : ℕ) : List (ℕ × ℕ × ℕ) :=
  (List.range segments).flatMap (fun i =>
    (List.range (pps - 1)).flatMap (fun j =>
      [(i*pps + j, i*pps + j + pps, i*pps + j + 1),
       (i*pps + j + pps, i*pps + j + pps + 1, i*pps + j + 1)]))

/-- The wing vertex array holds `(segments+1) * pointsPerSection` vertices. -/
def wingVertexCount (segments pps : ℕ) : ℕ := (segments + 1) * pps

/-- Embeds the face loop of `createOgiveGeometry` (`geometry.ts` lines
162-172): for each ring band `i < rings` and each angular step
`j < segments`, two triangles over the quad `a = i*(segments+1) + j`,
`b = a + segments + 1`, `c = a + 1`, `d = b + 1`. -/
def ogiveTriangles (rings segments : ℕ) : List (ℕ × ℕ × ℕ) :=
  (List.range rings).flatMap (fun i =>
    (List.range segments).flatMap (fun j =>
      [(i*(segments+1) + j, i*(segments+1) + j + segments + 1,
        i*(segments+1) + j + 1),
       (i*(segments+1) + j + segments + 1, i*(segments+1) + j + segments + 2,
        i*(segments+1) + j + 1)]))

/-- The ogive vertex array holds `(rings+1) * (segments+1)` vertices. -/
def ogiveVertexCount (rings segments : ℕ) : ℕ := (rings + 1) * (segments + 1)

theorem length_flatMap_const {α β : Type} (l : List α) (f : α → List β) (k : ℕ)
    (h : ∀ a ∈ l, (f a).length = k) : (l.flatMap f).length = l.length * k := by
  induction l with
  | nil => simp
  | cons x xs ih =>
    rw [List.flatMap_cons, List.length_append, h x (List.mem_cons_self x xs),
      ih (fun a ha => h a (List.mem_cons_of_mem x ha)), List.length_cons]
    ring

theorem wingTriangles_length (segments pps : ℕ) :
    (wingTriangles segments pps).length = segments * (pps - 1) * 2 := by
  unfold wingTriangles
  rw [length_flatMap_const _ _ ((pps - 1) * 2) (fun i _ => by
    rw [length_flatMap_const _ _ 2 (fun j _ => by rfl), List.length_range]),
    List.length_range]
  ring

theorem ogiveTriangles_length (rings segments : ℕ) :
    (ogiveTriangles rings segments).length = rings * segments * 2 := by
  unfold ogiveTriangles
  rw [length_flatMap_const _ _ (segments * 2) (fun i _ => by
    rw [length_flatMap_const _ _ 2 (fun j _ => by rfl), List.length_range]),
    List.length_range]
  ring

theorem wingTriangles_indices_bounded (segments pps : ℕ) :
    ∀ t ∈ wingTriangles segments pps,
      t.1 < wingVertexCount segments pps ∧
      t.2.1 < wingVertexCount segments pps ∧
      t.2.2 < wingVertexCount segments pps := by
  intro t ht
  unfold wingTriangles at ht
  simp only [List.mem_flatMap, List.mem_range, List.mem_cons,
    List.not_mem_nil, or_false] at ht
  obtain ⟨i, hi, j, hj, ht⟩ := ht
  unfold wingVertexCount
  have h1 : (i + 1) * pps ≤ segments * pps := Nat.mul_le_mul_right pps hi
  have h2 : j + 1 < pps := by omega
  rcases ht with rfl | rfl <;> refine ⟨?_, ?_, ?_⟩ <;> simp only <;> nlinarith

theorem ogiveTriangles_indices_bounded (rings segments : ℕ) :
    ∀ t ∈ ogiveTriangles rings segments,
      t.1 < ogiveVertexCount rings segments ∧
      t.2.1 < ogiveVertexCount rings segments ∧
      t.2.2 < ogiveVertexCount rings segments := by
  intro t ht
  unfold ogiveTriangles at ht
  simp only [List.mem_flatMap, List.mem_range, List.mem_cons,
    List.not_mem_nil, or_false] at ht
  obtain ⟨i, hi, j, hj, ht⟩ := ht
  unfold ogiveVertexCount
  have h1 : (i + 1) * (segments + 1) ≤ rings * (segments + 1) :=
    Nat.mul_le_mul_right (segments + 1) hi
  rcases ht with rfl | rfl <;> refine ⟨?_, ?_, ?_⟩ <;> simp only <;> nlinarith

end Geometry

/-- A `THREE.Vector3`: JavaScript float components embedded as reals. -/
def Vec3 : Type := ℝ × ℝ × ℝ

namespace Vec3

def x (v : Vec3) : ℝ := v.1

def y (v : Vec3) : ℝ := v.2.1

def z (v : Vec3) : ℝ := v.2.2

def mk3 (a b c : ℝ) : Vec3 := (a, b, c)

def zero : Vec3 := (0, 0, 0)

def add (a b : Vec3) : Vec3 := (a.x + b.x, a.y + b.y, a.z + b.z)

def sub (a b : Vec3) : Vec3 := (a.x - b.x, a.y - b.y, a.z - b.z)

def smul (c : ℝ) (a : Vec3) : Vec3 := (c * a.x, c * a.y, c * a.z)

/-- Embeds `Vector3.cross`, component order as in three.js. -/
def cross (a b : Vec3) : Vec3 :=
  (a.y * b.z - a.z * b.y, a.z * b.x - a.x * b.z, a.x * b.y - a.y * b.x)

def dot (a b : Vec3) : ℝ := a.x * b.x + a.y * b.y + a.z * b.z

/-- Embeds `Vector3.length()`. -/
noncomputable def norm (a : Vec3) : ℝ := Real.sqrt (dot a a)

theorem cross_zero_right (a : Vec3) : cross a zero = zero := by
  unfold cross zero
  simp [x, y, z]

end Vec3

namespace Geometry

/-- Embeds `rho = (radius*radius + length*length) / (2*radius)` of
`createOgiveGeometry`. -/
noncomputable def ogiveRho (length radius : ℝ) : ℝ :=
  (radius * radius + length * length) / (2 * radius)

/-- Embeds the ogive profile
`y = Math.sqrt(rho*rho - (length-x)*(length-x)) - (rho - radius)`. -/
noncomputable def ogiveProfile (length radius x : ℝ) : ℝ :=
  Real.sqrt (ogiveRho length radius * ogiveRho length radius -
    (length - x) * (length - x)) - (ogiveRho length radius - radius)

/-- Embeds the vertex loop of `createOgiveGeometry`: ring `i`, angular step
`j` gives `(x, y·cos θ, y·sin θ)` with `x = (i/rings)·length` and
`θ = (j/segments)·2π`. -/
noncomputable def ogiveVertex (length radius : ℝ) (rings segments i j : ℕ) : Vec3 :=
  ((i : ℝ) / rings * length,
   ogiveProfile length radius ((i : ℝ) / rings * length) *
     Real.cos ((j : ℝ) / segments * (2 * Real.pi)),
   ogiveProfile length radius ((i : ℝ) / rings * length) *
     Real.sin ((j : ℝ) / segments * (2 * Real.pi)))

/-- The ogive vertex array is laid out ring-major, so flat vertex index `v`
denotes ring `v / (segments+1)`, angular step `v % (segments+1)`. -/
noncomputable def ogiveVertexFlat (length radius : ℝ) (rings segments v : ℕ) : Vec3 :=
  ogiveVertex length radius rings segments (v / (segments + 1)) (v % (segments + 1))

/-- A triangle with zero area: the cross product of its edge vectors
vanishes. -/
def DegenerateTri (v0 v1 v2 : Vec3) : Prop :=
  Vec3.cross (Vec3.sub v1 v0) (Vec3.sub v2 v0) = Vec3.zero

/-- At the ogive tip (`x = 0`) the profile radius is exactly 0: with
`ρ = (R² + L²)/(2R)` one has `ρ² − L² = ((L² − R²)/(2R))²`, whose square root
is `ρ − R` whenever `R ≤ L`. -/
theorem ogiveProfile_tip : ogiveProfile 5 1 0 = 0 := by
  unfold ogiveProfile ogiveRho
  rw [show ((1:ℝ) * 1 + 5 * 5) / (2 * 1) * (((1:ℝ) * 1 + 5 * 5) / (2 * 1)) -
      (5 - 0) * (5 - 0) = 12 ^ 2 by norm_num]
  rw [Real.sqrt_sq (by norm_num : (0:ℝ) ≤ 12)]
  norm_num

theorem ogiveVertexFlat_tip_zero (v : ℕ) (hv : v % 33 = v) :
    ogiveVertexFlat 5 1 32 32 v = Vec3.zero := by
  unfold ogiveVertexFlat ogiveVertex Vec3.zero
  have hdiv : v / 33 = 0 := by omega
  rw [hdiv]
  norm_num [ogiveProfile_tip]

/-- Counterexample to C6 as stated: the ogive mesh (default 32 rings,
32 segments, in-bounds genes length 5, radius 1 of the bullet-train scenario)
contains the triangle `(0, 33, 1)` whose first and third vertices both sit at
the degenerate tip ring (profile radius 0), so its area is zero. -/
theorem ogive_mesh_has_degenerate_triangle :
    (0, 33, 1) ∈ ogiveTriangles 32 32 ∧
    DegenerateTri (ogiveVertexFlat 5 1 32 32 0)
      (ogiveVertexFlat 5 1 32 32 33) (ogiveVertexFlat 5 1 32 32 1) := by
  constructor
  · decide
  · unfold DegenerateTri
    rw [ogiveVertexFlat_tip_zero 0 (by norm_num),
      ogiveVertexFlat_tip_zero 1 (by norm_num)]
    rw [show Vec3.sub Vec3.zero Vec3.zero = Vec3.zero by
      unfold Vec3.sub Vec3.zero Vec3.x Vec3.y Vec3.z; norm_num]
    exact Vec3.cross_zero_right _

/-- Embeds `points.length` of `createAhmedBodyGeometry`: the Ahmed profile
has 8 points, independent of the slant-angle gene. -/
def ahmedPointCount : ℕ := 8

/-- Embeds `const segments = 20` of `createAhmedBodyGeometry`. -/
def ahmedSegments : ℕ := 20

/-- Embeds the face loops of `createAhmedBodyGeometry` (`geometry.ts` lines
222-245): side quads exactly as in the wing extrusion over 20 segments and 8
profile points, then a front cap fan `(0, i+1, i)` and a back cap fan
`(backStart, backStart+i, backStart+i+1)` for `i = 1 .. pointsPerSection-2`,
with `backStart = segments * pointsPerSection`. -/
def ahmedTriangles : List (ℕ × ℕ × ℕ) :=
  ((List.range ahmedSegments).flatMap (fun i =>
    (List.range (ahmedPointCount - 1)).flatMap (fun j =>
      [(i*ahmedPointCount + j, i*ahmedPointCount + j + ahmedPointCount,
        i*ahmedPointCount + j + 1),
       (i*ahmedPointCount + j + ahmedPointCount,
        i*ahmedPointCount + j + ahmedPointCount + 1,
        i*ahmedPointCount + j + 1)])))
  ++ (List.range (ahmedPointCount - 2)).map (fun k => (0, k + 2, k + 1))
  ++ (List.range (ahmedPointCount - 2)).map (fun k =>
      (ahmedSegments * ahmedPointCount,
       ahmedSegments * ahmedPointCount + k + 1,
       ahmedSegments * ahmedPointCount + k + 2))

/-- The Ahmed body vertex array holds `(segments+1) * pointsPerSection = 168`
vertices. -/
def ahmedVertexCount : ℕ := (ahmedSegments + 1) * ahmedPointCount

set_option maxRecDepth 4000 in
theorem ahmedTriangles_length :
    ahmedTriangles.length =
      ahmedSegments * (ahmedPointCount - 1) * 2 + 2 * (ahmedPointCount - 2) := by
  decide

set_option maxRecDepth 8000 in
theorem ahmedTriangles_indices_bounded :
    ∀ t ∈ ahmedTriangles,
      t.1 < ahmedVertexCount ∧ t.2.1 < ahmedVertexCount ∧
      t.2.2 < ahmedVertexCount := by
  decide

/-- C6 (amended): every triangle emitted by the wing, ogive and Ahmed-body
generators is a 3-vertex-index group whose indices all lie in
`[0, vertexCount)`, and the triangle counts equal the closed forms
`segments × (pointsPerSection − 1) × 2` (wing), `rings × segments × 2`
(ogive) and `segments × (pointsPerSection − 1) × 2 + 2 × (pointsPerSection − 2)`
(Ahmed body, its 20 segments and 8 profile points being fixed constants);
the non-degeneracy part of the claim is false: the ogive tip ring has profile
radius 0, so the tip band's triangles have zero area. -/
theorem mesh_triangle_spec (segments pps rings segs : ℕ) :
    (wingTriangles segments pps).length = segments * (pps - 1) * 2 ∧
    (∀ t ∈ wingTriangles segments pps,
      t.1 < wingVertexCount segments pps ∧
      t.2.1 < wingVertexCount segments pps ∧
      t.2.2 < wingVertexCount segments pps) ∧
    (ogiveTriangles rings segs).length = rings * segs * 2 ∧
    (∀ t ∈ ogiveTriangles rings segs,
      t.1 < ogiveVertexCount rings segs ∧
      t.2.1 < ogiveVertexCount rings segs ∧
      t.2.2 < ogiveVertexCount rings segs) ∧
    ahmedTriangles.length =
      ahmedSegments * (ahmedPointCount - 1) * 2 + 2 * (ahmedPointCount - 2) ∧
    (∀ t ∈ ahmedTriangles,
      t.1 < ahmedVertexCount ∧ t.2.1 < ahmedVertexCount ∧
      t.2.2 < ahmedVertexCount) :=
  ⟨wingTriangles_length segments pps,
    wingTriangles_indices_bounded segments pps,
    ogiveTriangles_length rings segs,
    ogiveTriangles_indices_bounded rings segs,
    ahmedTriangles_length,
    ahmedTriangles_indices_bounded⟩

end Geometry

namespace Cfd

/-- A panel as assembled in `PanelMethodSolver.solve`: centroid, unit normal
and area of one mesh triangle. -/
structure Panel where
  center : Vec3
  normal : Vec3
  area : ℝ

/-- Embeds `Vector3.normalize()`: scale by the reciprocal length.  (In
JavaScript a zero-length vector normalizes to NaN components; no claim below
depends on that case.) -/
noncomputable def normalize (a : Vec3) : Vec3 := Vec3.smul (Vec3.norm a)⁻¹ a

/-- Embeds the panel-assembly loop of `solve`: for triangle vertices
`v0, v1, v2`, the center is their average, the normal the normalized edge
cross product, the area half the cross product's length. -/
noncomputable def mkPanel (v0 v1 v2 : Vec3) : Panel :=
  { center := Vec3.smul (1/3) (Vec3.add (Vec3.add v0 v1) v2),
    normal := normalize (Vec3.cross (Vec3.sub v1 v0) (Vec3.sub v2 v0)),
    area := Vec3.norm (Vec3.cross (Vec3.sub v1 v0) (Vec3.sub v2 v0)) / 2 }

/-- Embeds one panel's term in the induced-velocity loop of `solve` (lines
93-105 of `cfd.ts`): skipped entirely when the vertex-to-centroid distance is
not greater than `0.001`, otherwise `(normal × r) · (strength / distance³)`
with `strength = (freestream · normal) · area`. -/
noncomputable def panelContribution (fs : Vec3) (pan : Panel) (p : Vec3) : Vec3 :=
  let r := Vec3.sub p pan.center
  let d := Vec3.norm r
  if 1/1000 < d then
    Vec3.smul (Vec3.dot fs pan.normal * pan.area / (d * d * d))
      (Vec3.cross pan.normal r)
  else Vec3.zero

/-- The summed induced velocity at a vertex. -/
noncomputable def inducedVelocity (fs : Vec3) (panels : List Panel) (p : Vec3) : Vec3 :=
  panels.foldl (fun acc pan => Vec3.add acc (panelContribution fs pan p)) Vec3.zero

/-- Embeds the pressure-coefficient computation of `solve` (lines 107-117):
`Cp = 1 − (|V| / |V∞|)²`.  The JavaScript division `|V| / |V∞|` is non-finite
(NaN or Infinity) exactly when the freestream speed is zero; the embedding
returns `none` for that non-finite outcome. -/
noncomputable def pressureCoefficient (fs : Vec3) (panels : List Panel)
    (p : Vec3) : Option ℝ :=
  let tv := Vec3.add fs (inducedVelocity fs panels p)
  if Vec3.norm fs = 0 then none
  else some (1 - Vec3.norm tv / Vec3.norm fs * (Vec3.norm tv / Vec3.norm fs))

/-- Embeds the `PanelMethodSolver` constructor's freestream vector
`(v·cos α, v·sin α, 0)` with `α` in degrees. -/
noncomputable def freestreamOf (velocity angleOfAttack : ℝ) : Vec3 :=
  (velocity * Real.cos (angleOfAttack * Real.pi / 180),
   velocity * Real.sin (angleOfAttack * Real.pi / 180), 0)

/-- Embeds the JavaScript additions that accumulate `dragForce` and
`liftForce`: a non-finite summand (NaN) poisons the sum. -/
noncomputable def jadd (a b : Option ℝ) : Option ℝ :=
  match a, b with
  | some x, some y => some (x + y)
  | _, _ => none

/-- Embeds the `/ 3` of the per-panel average pressure coefficient; dividing
by the constant 3 keeps a finite value finite. -/
noncomputable def jdiv3 (a : Option ℝ) : Option ℝ :=
  match a with
  | some x => some (x / 3)
  | none => none

/-- The centroid recomputed in the force loop of `solve` (lines 136-141):
`(v0 + v1 + v2) / 3` of a triangle's vertices. -/
noncomputable def triCenter (verts : ℕ → Vec3) (t : ℕ × ℕ × ℕ) : Vec3 :=
  Vec3.smul (1/3) (Vec3.add (Vec3.add (verts t.1) (verts t.2.1)) (verts t.2.2))

open Classical in
/-- Embeds the panel-to-triangle matching scan of the force loop (lines
129-148): the first triangle whose recomputed centroid lies within distance
`0.001` of the panel's center, if any. -/
noncomputable def findMatchingTri (verts : ℕ → Vec3) (tris : List (ℕ × ℕ × ℕ))
    (c : Vec3) : Option (ℕ × ℕ × ℕ) :=
  tris.find? (fun t => decide (Vec3.norm (Vec3.sub (triCenter verts t) c) < 1/1000))

/-- The pressure coefficient of mesh vertex `v`, as stored in
`pressureCoefficients[v]`. -/
noncomputable def vertexCp (fs : Vec3) (panels : List Panel) (verts : ℕ → Vec3)
    (v : ℕ) : Option ℝ :=
  pressureCoefficient fs panels (verts v)

/-- The per-panel averaged vertex pressure coefficient of the force loop:
`none` when no triangle matches (`count = 0`, the panel is skipped), otherwise
the mean of the matched triangle's three vertex coefficients. -/
noncomputable def panelAvgCp (fs : Vec3) (verts : ℕ → Vec3)
    (tris : List (ℕ × ℕ × ℕ)) (panels : List Panel) (pan : Panel) :
    Option (Option ℝ) :=
  match findMatchingTri verts tris pan.center with
  | none => none
  | some t => some (jdiv3 (jadd (jadd (vertexCp fs panels verts t.1)
      (vertexCp fs panels verts t.2.1)) (vertexCp fs panels verts t.2.2)))

/-- Embeds one panel's term in the force sums (lines 151-164): nothing when
the panel matched no triangle, otherwise the pressure force
`normal · (−avgCp · dynamicPressure · area)` projected on the freestream
direction (drag) and on the fixed vertical axis (lift). -/
noncomputable def dragLiftContribution (density : ℝ) (fs : Vec3)
    (avg : Option (Option ℝ)) (pan : Panel) : Option ℝ × Option ℝ :=
  match avg with
  | none => (some 0, some 0)
  | some none => (none, none)
  | some (some c) =>
    (some (Vec3.dot (Vec3.smul (-c * (1/2 * density * Vec3.dot fs fs) * pan.area)
        pan.normal) (normalize fs)),
     some (Vec3.dot (Vec3.smul (-c * (1/2 * density * Vec3.dot fs fs) * pan.area)
        pan.normal) ((0:ℝ), (1:ℝ), (0:ℝ))))

/-- The panel list `solve` assembles from the indexed mesh (lines 47-71). -/
noncomputable def meshPanels (verts : ℕ → Vec3) (tris : List (ℕ × ℕ × ℕ)) :
    List Panel :=
  tris.map (fun t => mkPanel (verts t.1) (verts t.2.1) (verts t.2.2))

/-- The accumulated `dragForce` returned by `solve`. -/
noncomputable def solveDrag (density : ℝ) (fs : Vec3) (verts : ℕ → Vec3)
    (tris : List (ℕ × ℕ × ℕ)) : Option ℝ :=
  (meshPanels verts tris).foldl (fun acc pan =>
    jadd acc (dragLiftContribution density fs
      (panelAvgCp fs verts tris (meshPanels verts tris) pan) pan).1) (some 0)

/-- The accumulated `liftForce` returned by `solve`. -/
noncomputable def solveLift (density : ℝ) (fs : Vec3) (verts : ℕ → Vec3)
    (tris : List (ℕ × ℕ × ℕ)) : Option ℝ :=
  (meshPanels verts tris).foldl (fun acc pan =>
    jadd acc (dragLiftContribution density fs
      (panelAvgCp fs verts tris (meshPanels verts tris) pan) pan).2) (some 0)

theorem pressureCoefficient_isSome (fs : Vec3) (panels : List Panel) (p : Vec3)
    (hfs : Vec3.norm fs ≠ 0) :
    (pressureCoefficient fs panels p).isSome = true := by
  unfold pressureCoefficient
  rw [if_neg hfs]
  rfl

theorem foldl_jadd_isSome {α : Type} (f : α → Option ℝ) (l : List α) (a : ℝ)
    (h : ∀ x ∈ l, (f x).isSome = true) :
    ((l.foldl (fun acc pan => jadd acc (f pan)) (some a)).isSome = true) := by
  induction l generalizing a with
  | nil => rfl
  | cons x xs ih =>
    rw [List.foldl_cons]
    obtain ⟨y, hy⟩ := Option.isSome_iff_exists.mp (h x (List.mem_cons_self x xs))
    rw [hy, show jadd (some a) (some y) = some (a + y) from rfl]
    exact ih (a + y) (fun z hz => h z (List.mem_cons_of_mem x hz))

theorem dragLiftContribution_isSome (density : ℝ) (fs : Vec3)
    (verts : ℕ → Vec3) (tris : List (ℕ × ℕ × ℕ)) (panels : List Panel)
    (pan : Panel) (hfs : Vec3.norm fs ≠ 0) :
    ((dragLiftContribution density fs
        (panelAvgCp fs verts tris panels pan) pan).1).isSome = true ∧
    ((dragLiftContribution density fs
        (panelAvgCp fs verts tris panels pan) pan).2).isSome = true := by
  unfold panelAvgCp vertexCp
  cases hfind : findMatchingTri verts tris pan.center with
  | none => exact ⟨rfl, rfl⟩
  | some t =>
    dsimp only
    obtain ⟨c1, e1⟩ := Option.isSome_iff_exists.mp
      (pressureCoefficient_isSome fs panels (verts t.1) hfs)
    obtain ⟨c2, e2⟩ := Option.isSome_iff_exists.mp
      (pressureCoefficient_isSome fs panels (verts t.2.1) hfs)
    obtain ⟨c3, e3⟩ := Option.isSome_iff_exists.mp
      (pressureCoefficient_isSome fs panels (verts t.2.2) hfs)
    rw [e1, e2, e3]
    exact ⟨rfl, rfl⟩

theorem freestreamOf_zero : freestreamOf 0 0 = Vec3.zero := by
  unfold freestreamOf Vec3.zero
  norm_num

theorem norm_zero_vec : Vec3.norm Vec3.zero = 0 := by
  unfold Vec3.norm Vec3.dot Vec3.zero Vec3.x Vec3.y Vec3.z
  norm_num

/-- Counterexample to C7 as stated: at zero freestream speed the pressure
coefficient is non-finite (in JavaScript `0 / 0 = NaN` flows into
`Cp = 1 − ratio²`); the division by the freestream speed is NOT guarded.
The mesh here is the single triangle `(0,0,0), (1,0,0), (0,1,0)` and the
evaluation point its first vertex. -/
theorem cp_nonfinite_at_zero_freestream :
    pressureCoefficient (freestreamOf 0 0)
      [mkPanel (0, 0, 0) (1, 0, 0) (0, 1, 0)] (0, 0, 0) = none := by
  unfold pressureCoefficient
  rw [freestreamOf_zero, if_pos norm_zero_vec]

/-- C7 (amended): induced-velocity contributions from panels whose centroid
lies within distance `0.001` of the evaluation point are skipped, and for a
nonzero freestream speed the pressure coefficient and the accumulated drag
and lift forces are all finite values; but the division by the freestream
speed is not guarded, so a zero freestream speed produces a non-finite
pressure coefficient. -/
theorem cfd_finite_nonzero_freestream_and_near_skip (density : ℝ)
    (fs p : Vec3) (verts : ℕ → Vec3) (tris : List (ℕ × ℕ × ℕ))
    (panels rest : List Panel) (pan : Panel)
    (hfs : Vec3.norm fs ≠ 0)
    (hnear : Vec3.norm (Vec3.sub p pan.center) ≤ 1/1000) :
    (pressureCoefficient fs panels p).isSome = true ∧
    inducedVelocity fs (pan :: rest) p = inducedVelocity fs rest p ∧
    (solveDrag density fs verts tris).isSome = true ∧
    (solveLift density fs verts tris).isSome = true := by
  refine ⟨pressureCoefficient_isSome fs panels p hfs, ?_, ?_, ?_⟩
  · unfold inducedVelocity
    rw [List.foldl_cons]
    have hskip : panelContribution fs pan p = Vec3.zero := by
      unfold panelContribution
      rw [if_neg (not_lt.mpr hnear)]
    rw [hskip]
    rw [show Vec3.add Vec3.zero Vec3.zero = Vec3.zero by
      unfold Vec3.add Vec3.zero Vec3.x Vec3.y Vec3.z; norm_num]
  · exact foldl_jadd_isSome _ (meshPanels verts tris) 0 (fun pan2 _ =>
      (dragLiftContribution_isSome density fs verts tris
        (meshPanels verts tris) pan2 hfs).1)
  · exact foldl_jadd_isSome _ (meshPanels verts tris) 0 (fun pan2 _ =>
      (dragLiftContribution_isSome density fs verts tris
        (meshPanels verts tris) pan2 hfs).2)

/-- Concrete instance of `cfd_finite_nonzero_freestream_and_near_skip`:
density 1, freestream `(1,0,0)`, a panel centered at the evaluation point
`(0,0,0)`, and the one-triangle mesh `(0, 1, 2)` over vertices fixed at the
origin. -/
theorem cfd_finite_nonzero_freestream_and_near_skip_witness :
    (Vec3.norm ((1:ℝ), (0:ℝ), (0:ℝ)) ≠ 0 ∧
      Vec3.norm (Vec3.sub ((0:ℝ), (0:ℝ), (0:ℝ))
        (Panel.mk ((0:ℝ), (0:ℝ), (0:ℝ)) ((0:ℝ), (0:ℝ), (1:ℝ)) 1).center) ≤ 1/1000) ∧
    ((pressureCoefficient ((1:ℝ), (0:ℝ), (0:ℝ)) [] ((0:ℝ), (0:ℝ), (0:ℝ))).isSome = true ∧
      inducedVelocity ((1:ℝ), (0:ℝ), (0:ℝ))
          [Panel.mk ((0:ℝ), (0:ℝ), (0:ℝ)) ((0:ℝ), (0:ℝ), (1:ℝ)) 1] ((0:ℝ), (0:ℝ), (0:ℝ)) =
        inducedVelocity ((1:ℝ), (0:ℝ), (0:ℝ)) [] ((0:ℝ), (0:ℝ), (0:ℝ)) ∧
      (solveDrag 1 ((1:ℝ), (0:ℝ), (0:ℝ)) (fun _ => ((0:ℝ), (0:ℝ), (0:ℝ)))
        [(0, 1, 2)]).isSome = true ∧
      (solveLift 1 ((1:ℝ), (0:ℝ), (0:ℝ)) (fun _ => ((0:ℝ), (0:ℝ), (0:ℝ)))
        [(0, 1, 2)]).isSome = true) := by
  have h1 : Vec3.norm ((1:ℝ), (0:ℝ), (0:ℝ)) ≠ 0 := by
    unfold Vec3.norm Vec3.dot Vec3.x Vec3.y Vec3.z
    norm_num
  have h2 : Vec3.norm (Vec3.sub ((0:ℝ), (0:ℝ), (0:ℝ))
      (Panel.mk ((0:ℝ), (0:ℝ), (0:ℝ)) ((0:ℝ), (0:ℝ), (1:ℝ)) 1).center) ≤ 1/1000 := by
    unfold Vec3.norm Vec3.dot Vec3.sub Vec3.x Vec3.y Vec3.z
    norm_num
  exact ⟨⟨h1, h2⟩,
    cfd_finite_nonzero_freestream_and_near_skip 1 ((1:ℝ), (0:ℝ), (0:ℝ))
      ((0:ℝ), (0:ℝ), (0:ℝ)) (fun _ => ((0:ℝ), (0:ℝ), (0:ℝ))) [(0, 1, 2)] []
      [] (Panel.mk ((0:ℝ), (0:ℝ), (0:ℝ)) ((0:ℝ), (0:ℝ), (1:ℝ)) 1) h1 h2⟩

end Cfd

namespace Objective

/-- Embeds the JavaScript `goal.includes(sub)`: `sub` occurs contiguously in
`goal`. -/
def jsIncludes (goal sub : String) : Bool := decide (sub.data <:+: goal.data)

/-- Embeds the fitness mapping of `objectiveFunction` in the Home page
(lines 133-145): the scenario goal string selects how `(cd, cl)` becomes a
scalar fitness. -/
def objectiveFitness (goal : String) (cd cl : ℚ) : ℚ :=
  if jsIncludes goal "Minimize drag" then -cd
  else if jsIncludes goal "Maximize L/D" then
    (if 1/1000 < |cd| then cl / cd else 0)
  else if jsIncludes goal "Maximize downforce" then -cl
  else -cd

/-- C8: the objective maps the drag and lift coefficients by the scenario
goal: a goal naming `Minimize drag` yields `−Cd`; a goal naming
`Maximize L/D` yields `Cl/Cd` when `|Cd|` exceeds the near-zero guard `0.001`
and the safe fallback `0` otherwise; a goal naming `Maximize downforce`
yields `−Cl`; an unrecognized goal defaults to `−Cd`. -/
theorem objectiveFitness_goal_mapping (cd cl : ℚ) :
    objectiveFitness "Minimize drag coefficient" cd cl = -cd ∧
    objectiveFitness "Maximize L/D ratio" cd cl =
      (if 1/1000 < |cd| then cl / cd else 0) ∧
    objectiveFitness "Maximize downforce" cd cl = -cl ∧
    objectiveFitness "Maximize power coefficient" cd cl = -cd := by
  refine ⟨?_, ?_, ?_, ?_⟩
  · unfold objectiveFitness
    rw [show jsIncludes "Minimize drag coefficient" "Minimize drag" = true from by decide]
    simp
  · unfold objectiveFitness
    rw [show jsIncludes "Maximize L/D ratio" "Minimize drag" = false from by decide,
      show jsIncludes "Maximize L/D ratio" "Maximize L/D" = true from by decide]
    simp
  · unfold objectiveFitness
    rw [show jsIncludes "Maximize downforce" "Minimize drag" = false from by decide,
      show jsIncludes "Maximize downforce" "Maximize L/D" = false from by decide,
      show jsIncludes "Maximize downforce" "Maximize downforce" = true from by decide]
    simp
  · unfold objectiveFitness
    rw [show jsIncludes "Maximize power coefficient" "Minimize drag" = false from by decide,
      show jsIncludes "Maximize power coefficient" "Maximize L/D" = false from by decide,
      show jsIncludes "Maximize power coefficient" "Maximize downforce" = false from by decide]
    simp

end Objective
